import Mathlib

/-!
Verification development for `fdb.py`, a deduplicating media archiver with an
HTTP byte-range serving layer.  The Python source is shallowly embedded below:
pure fragments become Lean functions, the sqlite catalog becomes explicit
record state, the filesystem becomes an explicit directory/file store, and
fallible operations return sum types.  Nondeterministic inputs of the program
(file contents, `uuid4` tokens, subprocess output) are passed in as data.
-/

namespace Fdb

/-! ## String helpers -/

/-- Characters matched by the regex class `\w` (ASCII fragment; the source
compiles `\w+` with `re.U`, which additionally matches non-ASCII word
characters — all inputs considered here are ASCII). -/
def isWordChar (c : Char) : Bool := c.isAlphanum || c == '_'

/-- Maximal runs of word characters of a character list, in order
(`WORDS.findall`). The accumulator holds the current run, reversed. -/
def wordsAux : List Char → List Char → List String
  | [], [] => []
  | [], cur => [⟨cur.reverse⟩]
  | c :: rest, cur =>
    if isWordChar c then wordsAux rest (c :: cur)
    else if cur.isEmpty then wordsAux rest []
    else ⟨cur.reverse⟩ :: wordsAux rest []

/-- `str.lower()` (ASCII). -/
def lowerStr (s : String) : String := ⟨s.data.map Char.toLower⟩

/-- `s[:n]` on a string (kernel-reducible form). -/
def takeStr (s : String) (n : Nat) : String := ⟨s.data.take n⟩

/-- `s[n:]` on a string (kernel-reducible form). -/
def dropStr (s : String) (n : Nat) : String := ⟨s.data.drop n⟩

/-- `s.startswith(t)` (kernel-reducible form). -/
def startsWithStr (s t : String) : Bool := t.data.isPrefixOf s.data

/-- `get_words(text)`: all `\w+` tokens of `text`, each lower-cased. -/
def get_words (text : String) : List String :=
  (wordsAux text.data []).map lowerStr

/-- `os.path.splitext` restricted to slash-free inputs (it is applied below
only to generated file ids, which contain no path separator): split off the
extension at the last dot, except when every character before that dot is
itself a dot (e.g. `".bashrc"` has no extension). -/
def splitext (s : String) : String × String :=
  let cs := s.data
  let extRev := cs.reverse.takeWhile (fun c => c != '.')
  if extRev.length == cs.length then (s, "")
  else
    let baseLen := cs.length - extRev.length - 1
    if (cs.take baseLen).all (fun c => c == '.') then (s, "")
    else (⟨cs.take baseLen⟩, ⟨cs.drop baseLen⟩)

/-- `str.partition('/')` specialised to what `convert_path` consumes: text
before the first slash, and text after it (empty when there is no slash —
in the source the "not found" case also yields an empty third component). -/
def breakAtSlash : List Char → List Char × List Char
  | [] => ([], [])
  | c :: rest =>
    if c == '/' then ([], rest)
    else
      let p := breakAtSlash rest
      (c :: p.1, p.2)

/-- Python `key in dict` on an association-list rendering of a dict. -/
def hasKey (attrs : List (String × String)) (k : String) : Bool :=
  attrs.any (fun a => a.1 == k)

/-! ## Catalog model

The sqlite schema `MDB_DEFS` declares tables `Entries`, `Attrs` and `Logs`
and a (non-unique) index on `Attrs`.  Note that the schema carries **no**
UNIQUE constraint on `(fileSize, fileHash)`: the only guard against a
duplicate dedup key is the lookup inside `_add_entry`.  `entryId` is an
INTEGER PRIMARY KEY, so sqlite assigns `lastrowid = (number of rows) + 1`
for this append-only table.  `Logs.timestamp` (`datetime()`) and `actionId`
are external/positional and elided from the model. -/

structure Entry where
  entryId : Nat
  fileId : String
  fileType : Option String
  fileSize : Nat
  fileHash : String
deriving Repr, DecidableEq

structure Catalog where
  entries : List Entry
  attrs : List (Nat × String × String)
  logs : List (Nat × String)
deriving Repr, DecidableEq

/-- Attribute-row existence: `∃` a row `(eid, n, v)` in `Attrs`. -/
def hasAttr (c : Catalog) (eid : Nat) (n v : String) : Bool :=
  c.attrs.any (fun a => a.1 == eid && a.2.1 == n && a.2.2 == v)

/-- The relaxed duplicate lookup of `_add_entry` (non-strict mode): a join of
`Entries` with two `Attrs` aliases asking for an entry with the given size
whose `path` attribute equals `relpath` and whose `mtime` attribute equals
`str(mtime)` (sqlite TEXT affinity converts the integer parameter to text). -/
def findPathMtimeDup (c : Catalog) (filesize : Nat) (relpath : String) (mtime : Int) : Option Nat :=
  (c.entries.find? (fun en =>
    en.fileSize == filesize
      && hasAttr c en.entryId "path" relpath
      && hasAttr c en.entryId "mtime" (toString mtime))).map Entry.entryId

/-- The authoritative dedup lookup of `_add_entry`:
`SELECT entryId FROM Entries WHERE fileSize=? AND fileHash=?`. -/
def findSizeHashDup (c : Catalog) (filesize : Nat) (filehash : String) : Option Nat :=
  (c.entries.find? (fun en =>
    en.fileSize == filesize && en.fileHash == filehash)).map Entry.entryId

/-- A readable source file, as `add`/`_add_entry` observe it: the `os.stat`
fields, the sha1 digest `get_filehash` computes from its bytes, the extension
`os.path.splitext(srcpath)[1]`, the `mimetypes.guess_type` result, its raw
bytes, and what each prober would return for it (the probers are external
collaborators driven by subprocesses, so their outputs are input data here).
`ctimeStr` is `time2str(time.gmtime(st_ctime))`. -/
structure SrcFile where
  size : Nat
  mtime : Int
  ctimeStr : String
  hash : String
  ext : String
  mime : Option String
  content : String
  videoAttrs : List (String × String)
  videoThumb : Option String
  imageAttrs : List (String × String)
  imageThumb : Option String
deriving Repr, DecidableEq

/-- Result of `FileDB._add_entry`: either the `DuplicateEntry(eid)` exception
or the updated catalog together with `(fileid, filetype, eid)`. -/
inductive AddEntryRes where
  | dup (eid : Nat)
  | ok (cat : Catalog) (fileid : String) (filetype : Option String) (eid : Nat)
deriving Repr, DecidableEq

/-- `FileDB._add_entry(srcpath, relpath)`.  `uuid` stands for the fresh
`uuid.uuid4().hex` token. In non-strict mode a path+mtime match raises
`DuplicateEntry` before the file is hashed; then the size+hash lookup raises
`DuplicateEntry`; otherwise a new row is inserted. -/
def _add_entry (strict : Bool) (c : Catalog) (f : SrcFile) (relpath uuid : String) : AddEntryRes :=
  match (if strict then none else findPathMtimeDup c f.size relpath f.mtime) with
  | some eid => .dup eid
  | none =>
    match findSizeHashDup c f.size f.hash with
    | some eid => .dup eid
    | none =>
      .ok { c with entries := c.entries ++
              [⟨c.entries.length + 1, uuid ++ lowerStr f.ext, f.mime, f.size, f.hash⟩] }
        (uuid ++ lowerStr f.ext) f.mime (c.entries.length + 1)

/-! ## Content store model -/

/-- Filesystem state under the archive root: the set of existing directories
(as a list of absolute-ish path strings) and the stored files (path plus
byte content, a file's length being its byte size). -/
structure Store where
  dirs : List String
  files : List (String × String)
deriving Repr, DecidableEq

/-- `FileDB.get_path(subdir, fileid)`: `assert 2 < len(fileid)` (modelled as
`none`), then `dirpath = subdir/fileid[:2]`, created if absent (note: a
*mutation*, performed even on read paths), and the shard path is returned. -/
def get_path (st : Store) (subdir fileid : String) : Option (Store × String) :=
  if 2 < fileid.length then
    let pfx := takeStr fileid 2
    let dirpath := subdir ++ "/" ++ pfx
    let st' := if dirpath ∈ st.dirs then st else { st with dirs := st.dirs ++ [dirpath] }
    some (st', dirpath ++ "/" ++ fileid)
  else none

/-! ## Ingestion pipeline (`FileDB.add`, `FileDB.run`) -/

/-- The `FileDB` configuration relevant to ingestion. -/
structure Ctx where
  basedir : String
  strict : Bool
  dryrun : Bool
deriving Repr, DecidableEq

/-- Combined mutable state: the sqlite catalog plus the filesystem. -/
structure SState where
  catalog : Catalog
  store : Store
deriving Repr, DecidableEq

/-- How a call to `FileDB.add` terminates: an uncaught `OSError` from
`os.stat`/`get_filehash` on an unreadable source, an uncaught
`AssertionError` from `get_path`, or a normal `return v` (the source has no
`return x` with a value, so `v` is always `none` = Python `None`). -/
inductive AddOutcome where
  | ioError
  | assertError
  | ret (v : Option Nat)
deriving Repr, DecidableEq

/-- The prober dispatch inside `add`: by MIME prefix, the attribute map and
optional thumbnail the relevant prober returns (nothing for `None` or other
types). -/
def proberOutputs (f : SrcFile) (filetype : Option String) :
    List (String × String) × Option String :=
  match filetype with
  | none => ([], none)
  | some ft =>
    if startsWithStr ft "video/" || startsWithStr ft "audio/" then (f.videoAttrs, f.videoThumb)
    else if startsWithStr ft "image/" then (f.imageAttrs, f.imageThumb)
    else ([], none)

/-- `if 'timestamp' not in attrs1: attrs1['timestamp'] = time2str(...)` —
dict insertion appends at the end. -/
def attrs1Final (attrs1 : List (String × String)) (ctimeStr : String) : List (String × String) :=
  if hasKey attrs1 "timestamp" then attrs1 else attrs1 ++ [("timestamp", ctimeStr)]

/-- The full ordered attribute list `add` assembles for a new entry:
`path`, `mtime` (stringified by `_add_attrs`), one `tag` per lower-cased
word of the relative path, one `tag` per explicit tag, then the prober
attributes with `timestamp` ensured. -/
def assembledAttrs (relpath : String) (tags : List String) (f : SrcFile)
    (filetype : Option String) : List (String × String) :=
  [("path", relpath), ("mtime", toString f.mtime)]
    ++ (get_words relpath).map (fun w => ("tag", w))
    ++ tags.map (fun t => ("tag", t))
    ++ attrs1Final (proberOutputs f filetype).1 f.ctimeStr

/-- `FileDB.add(basedir, relpath, tags)`.  `f?` is the source file as the OS
presents it (`none`: `os.stat` raises `OSError`, which `add` does not catch);
`uuid` is the fresh token used by `_add_entry`.  Returns the new state, the
logger lines emitted (the `{relpath!r}` quoting of the source is elided), and
the outcome.  On `DuplicateEntry` the caller sees a plain `return` (Python
`None`): the existing entry id carried by the exception is discarded. -/
def add (ctx : Ctx) (s : SState) (relpath : String) (tags : List String)
    (f? : Option SrcFile) (uuid : String) : SState × List String × AddOutcome :=
  match f? with
  | none => (s, [], .ioError)
  | some f =>
    match _add_entry ctx.strict s.catalog f relpath uuid with
    | .dup _ => (s, ["ignored: " ++ relpath ++ "..."], .ret none)
    | .ok cat1 fileid filetype eid =>
      let lg := ["adding: " ++ relpath ++ "..."]
      let st1? :=
        if ctx.dryrun then some s.store
        else
          match get_path s.store (ctx.basedir ++ "/orig") fileid with
          | none => none
          | some (st', dst) => some { st' with files := st'.files ++ [(dst, f.content)] }
      match st1? with
      | none => (⟨cat1, s.store⟩, lg, .assertError)
      | some st1 =>
        let allA := assembledAttrs relpath tags f filetype
        let cat2 := { cat1 with attrs := cat1.attrs ++ allA.map (fun nv => (eid, nv.1, nv.2)) }
        let thumbnail := (proberOutputs f filetype).2
        let st2? :=
          if ctx.dryrun then some st1
          else
            match thumbnail with
            | none => some st1
            | some tb =>
              match get_path st1 (ctx.basedir ++ "/thumb") ((splitext fileid).1 ++ ".jpg") with
              | none => none
              | some (st', dst) => some { st' with files := st'.files ++ [(dst, tb)] }
        match st2? with
        | none => (⟨cat2, st1⟩, lg, .assertError)
        | some st2 =>
          let cat3 := { cat2 with logs := cat2.logs ++ [(eid, "add")] }
          (⟨cat3, st2⟩, lg, .ret none)

/-- One requested ingestion in a batch: the relative path, the source file as
the OS presents it, and the fresh uuid token for it. -/
structure AddOp where
  relpath : String
  tags : List String
  file : Option SrcFile
  uuid : String
deriving Repr, DecidableEq

/-- An arbitrary sequence of `add` invocations (each call's state feeds the
next), used to quantify over every reachable catalog. -/
def addSeq (ctx : Ctx) : SState → List AddOp → SState
  | s, [] => s
  | s, op :: rest => addSeq ctx (add ctx s op.relpath op.tags op.file op.uuid).1 rest

/-- The empty initial state: a freshly initialised catalog, no stored files. -/
def emptyState : SState := ⟨⟨[], [], []⟩, ⟨[], []⟩⟩

/-- The `add` command loop of `FileDB.run`: each batch item is passed to
`self.add` with the shared tag list.  Only `DuplicateEntry` is caught
(inside `add` itself); any other exception propagates out of the `for`
loop, so the returned flag records whether the batch ran to completion
(`true`) or was aborted by an uncaught exception (`false`), and the items
after the faulting one are never touched. -/
def runBatch (ctx : Ctx) (tags : List String) :
    SState → List AddOp → SState × List String × Bool
  | s, [] => (s, [], true)
  | s, op :: rest =>
    match add ctx s op.relpath tags op.file op.uuid with
    | (s', lg, .ioError) => (s', lg, false)
    | (s', lg, .assertError) => (s', lg, false)
    | (s', lg, .ret _) =>
      let r := runBatch ctx tags s' rest
      (r.1, lg ++ r.2.1, r.2.2)

/-- Dedup-key uniqueness over an entry list: no two distinct entries share
both `fileSize` and `fileHash`. -/
def dedupUniqueL (es : List Entry) : Prop :=
  ∀ a ∈ es, ∀ b ∈ es, a ≠ b → ¬(a.fileSize = b.fileSize ∧ a.fileHash = b.fileHash)

instance (es : List Entry) : Decidable (dedupUniqueL es) := by
  unfold dedupUniqueL; infer_instance

/-! ## HTTP range serving (`DBRequestHandler`) -/

/-- The longest digit run at the head of a character list, and the rest
(the greedy `(\d+)?` group). -/
def digitsPfx : List Char → List Char × List Char
  | [] => ([], [])
  | c :: rest =>
    if c.isDigit then
      let p := digitsPfx rest
      (c :: p.1, p.2)
    else ([], c :: rest)

/-- Decimal value of a digit run (`int(...)`). -/
def digitsToNat (ds : List Char) : Nat :=
  ds.foldl (fun a c => a * 10 + (c.toNat - 48)) 0

/-- `RANGE.match(rs)` for `RANGE = re.compile(r'bytes=(\d+)?-(\d+)?', re.I)`:
anchored at the start, case-insensitive on the literal `bytes`, trailing text
ignored; `none` when the regex does not match, otherwise the two optional
captured groups. -/
def matchRange (rs : String) : Option (Option Nat × Option Nat) :=
  match rs.data with
  | c1 :: c2 :: c3 :: c4 :: c5 :: c6 :: rest =>
    if c1.toLower == 'b' && c2.toLower == 'y' && c3.toLower == 't'
        && c4.toLower == 'e' && c5.toLower == 's' && c6 == '=' then
      let d1 := digitsPfx rest
      match d1.2 with
      | '-' :: rest2 =>
        let d2 := digitsPfx rest2
        some (if d1.1.isEmpty then none else some (digitsToNat d1.1),
              if d2.1.isEmpty then none else some (digitsToNat d2.1))
      | _ => none
    else none
  | _ => none

/-- The 206 response `send_head_partial` emits: status, the
`Content-Length` header value (`str(nbytes)`), the `Content-Range` header
value, and the `(offset, nbytes)` pair handed back for `fp.seek`/`fp.read`.
(`Content-Type` and `Last-Modified` are environment-derived and elided.) -/
structure RangeResp where
  status : Nat
  contentLength : String
  contentRange : String
  offset : Int
  nbytes : Int
deriving Repr, DecidableEq

/-- Result of `send_head_partial`: an `HTTPError(code)` or a sent 206. -/
inductive HeadResult where
  | err (code : Nat)
  | ok (r : RangeResp)
deriving Repr, DecidableEq

/-- `DBRequestHandler.send_head_partial(rs)`, with the resolved file
abstracted to `file : Option Nat` — `none` when `open` raises `OSError`
(no such stored object), `some L` when the file exists with byte length `L`
(`os.fstat(...)[6]`).  Mirrors the source order: regex match (400), the
both-groups-absent check (400), the open (404), then the start/end
arithmetic — performed on Python's unbounded signed integers, hence `Int`,
with **no** validation against `L` and no 416 path. -/
def send_head_byterange (rs : String) (file : Option Nat) : HeadResult :=
  match matchRange rs with
  | none => .err 400
  | some (s?, e?) =>
    if s?.isNone && e?.isNone then .err 400
    else
      match file with
      | none => .err 404
      | some length =>
        let se : Int × Int :=
          match s?, e? with
          | none, some n => ((length : Int) - (n : Int), (length : Int))
          | some a, none => ((a : Int), (length : Int))
          | some a, some b => ((a : Int), (b : Int) + 1)
          | none, none => (0, 0)
        let s := se.1
        let e := se.2
        let nbytes := e - s
        .ok ⟨206, toString nbytes,
          "bytes " ++ toString s ++ "-" ++ toString (e - 1) ++ "/" ++ toString (length : Int),
          s, nbytes⟩

/-- Result of `DBRequestHandler.convert_path`: the `assert` failures (leading
slash, `get_path`'s id-length assert) propagate as `AssertionError`; an
unknown category raises `HTTPError(400)`; otherwise the (possibly
directory-extended) store and resolved path. -/
inductive ConvertRes where
  | assertFail
  | err400
  | ok (st : Store) (p : String)
deriving Repr, DecidableEq

/-- `DBRequestHandler.convert_path(path)`: split `path[1:]` at the first
slash into category and file id and resolve through `FileDB.get_path`
(which may create the shard directory). -/
def convert_path (ctx : Ctx) (st : Store) (path : String) : ConvertRes :=
  if startsWithStr path "/" then
    if (⟨(breakAtSlash (dropStr path 1).data).1⟩ : String) == "orig" then
      match get_path st (ctx.basedir ++ "/orig") ⟨(breakAtSlash (dropStr path 1).data).2⟩ with
      | none => .assertFail
      | some (st', q) => .ok st' q
    else if (⟨(breakAtSlash (dropStr path 1).data).1⟩ : String) == "thumb" then
      match get_path st (ctx.basedir ++ "/thumb") ⟨(breakAtSlash (dropStr path 1).data).2⟩ with
      | none => .assertFail
      | some (st', q) => .ok st' q
    else .err400
  else .assertFail

/-- Visible termination of a request handler: an HTTP status line was sent,
or an uncaught exception tore the handler down. -/
inductive ReqOutcome where
  | resp (status : Nat)
  | crash
deriving Repr, DecidableEq

/-- Length of the stored file at path `p`, when it exists. -/
def lookupFile (st : Store) (p : String) : Option Nat :=
  (st.files.lookup p).map String.length

/-- The response status once the path is resolved: the range branch through
`send_head_partial` (a caught `HTTPError` becomes `send_error`), or the
stock `SimpleHTTPRequestHandler` whole-file serving (200 with full body for
GET / headers only for HEAD, 404 when the file is missing).  Both branches
only read the resolved file. -/
def serveResolved (st : Store) (p : String) (rangeHdr : Option String) : ReqOutcome :=
  match rangeHdr with
  | some rs =>
    match send_head_byterange rs (lookupFile st p) with
    | .err c => .resp c
    | .ok r => .resp r.status
  | none => .resp (if (lookupFile st p).isSome then 200 else 404)

/-- `DBRequestHandler.do_GET`: convert the path (`HTTPError` → `send_error`,
`AssertionError` → crash), then serve — the only state change a request can
make is the shard-directory creation inside `convert_path`'s call to
`get_path`. -/
def do_GET (ctx : Ctx) (s : SState) (path : String) (rangeHdr : Option String) :
    SState × ReqOutcome :=
  match convert_path ctx s.store path with
  | .assertFail => (s, .crash)
  | .err400 => (s, .resp 400)
  | .ok st' p => (⟨s.catalog, st'⟩, serveResolved st' p rangeHdr)

/-- `DBRequestHandler.do_HEAD`: identical resolution and header computation,
no body; the opened handle is closed at once on the range path. -/
def do_HEAD (ctx : Ctx) (s : SState) (path : String) (rangeHdr : Option String) :
    SState × ReqOutcome :=
  match convert_path ctx s.store path with
  | .assertFail => (s, .crash)
  | .err400 => (s, .resp 400)
  | .ok st' p => (⟨s.catalog, st'⟩, serveResolved st' p rangeHdr)

/-! ## Probers (`get_attrs_video`, `get_attrs_image`, thumbnail helpers)

The probers shell out to `ffprobe`/`ffmpeg` or open the file with PIL; those
external effects are abstracted into an outcome datum describing what the
collaborator produced, and the Lean functions replay the Python control flow
over it — in particular which exception classes the `try/except` blocks do
and do not absorb. -/

/-- A field of the external data that the Python code parses: missing,
present but raising `ValueError` when parsed, or parsed to `a`. -/
inductive FieldParse (α : Type) where
  | absent
  | bad
  | good (a : α)
deriving Repr, DecidableEq

/-- The `format` object of the ffprobe JSON: the optional `duration` string
(parsed by `int(float(d)+.5)`) and the optional `tags.creation_time`
(parsed by `strptime` and reformatted by `time2str`). -/
structure FfFormat where
  duration : FieldParse Nat
  creationTime : FieldParse String
deriving Repr, DecidableEq

/-- One stream object of the ffprobe JSON. -/
structure FfStream where
  width : Option Nat
  height : Option Nat
deriving Repr, DecidableEq

/-- The decoded ffprobe JSON document: `none` components model missing
`format` / `streams` keys (subscripting raises `KeyError`). -/
structure FfJson where
  fmt : Option FfFormat
  streams : Option (List FfStream)
deriving Repr, DecidableEq

/-- What the `ffprobe` subprocess invocation produced: `osErr` when `Popen`
raises `OSError` (e.g. ffprobe not installed), otherwise its stdout — which
`json.load` either fails to decode (`none`, raising `JSONDecodeError`, a
`ValueError`) or decodes to a document. -/
inductive FfprobeOutcome where
  | osErr
  | out (j : Option FfJson)
deriving Repr, DecidableEq

/-- The Python exceptions that can escape the prober bodies. -/
inductive PyExc where
  | valueError
  | keyError
deriving Repr, DecidableEq

/-- `get_attrs_video(path)` over the abstracted ffprobe outcome.  The
`try` block catches **only** `OSError`; `json.load` decode failures
(`ValueError`), missing `format`/`streams` keys (`KeyError`) and malformed
`duration`/`creation_time` values (`ValueError`) all escape.  Attribute
values are rendered as the strings `_add_attrs` would store. -/
def get_attrs_video (r : FfprobeOutcome) : Except PyExc (List (String × String)) :=
  match r with
  | .osErr => .ok [("duration", "0"), ("width", "0"), ("height", "0")]
  | .out none => .error .valueError
  | .out (some j) =>
    match j.fmt with
    | none => .error .keyError
    | some fm =>
      match fm.duration with
      | .bad => .error .valueError
      | _ =>
        match fm.creationTime with
        | .bad => .error .valueError
        | _ =>
          match j.streams with
          | none => .error .keyError
          | some strms =>
            let dur := match fm.duration with | .good n => n | _ => 0
            let w := strms.foldl (fun acc st => match st.width with | some v => v | none => acc) 0
            let hgt := strms.foldl (fun acc st => match st.height with | some v => v | none => acc) 0
            let base := [("duration", toString dur), ("width", toString w), ("height", toString hgt)]
            match fm.creationTime with
            | .good t => .ok (base ++ [("timestamp", t)])
            | _ => .ok base

/-- The EXIF data PIL decodes for an image: the tag iteration is abstracted
to the three tags the code inspects (modelled in the order description,
orientation, date-time). `orientationRot` is the rotation the code derives
(90/180/270 for orientation 8/3/6, else 0). -/
structure ExifData where
  description : Option String
  orientationRot : Option Nat
  dateTime : FieldParse String
deriving Repr, DecidableEq

/-- What `Image.open(path)` produced: `openErr` covers both `OSError` and
`UnidentifiedImageError` (both caught), otherwise the image with its pixel
size and EXIF data. -/
inductive PILOutcome where
  | openErr
  | ok (width height : Nat) (exif : ExifData)
deriving Repr, DecidableEq

/-- `get_attrs_image(path)` over the abstracted PIL outcome.  `OSError` and
`UnidentifiedImageError` are caught (empty map returned); a malformed EXIF
`DateTime`/`DateTimeOriginal` makes `time.strptime` raise `ValueError`,
which escapes. -/
def get_attrs_image (r : PILOutcome) : Except PyExc (List (String × String)) :=
  match r with
  | .openErr => .ok []
  | .ok w h ex =>
    match ex.dateTime with
    | .bad => .error .valueError
    | dt =>
      let a0 := [("width", toString w), ("height", toString h)]
      let a1 := a0 ++ (match ex.description with | some d => [("description", d)] | none => [])
      let a2 := a1 ++ (match ex.orientationRot with | some rot => [("rotation", toString rot)] | none => [])
      let a3 := a2 ++ (match dt with | .good t => [("timestamp", t)] | _ => [])
      .ok a3

/-- What a thumbnail helper's external pipeline produced: `osErr` covers
every `OSError` — including PIL's `UnidentifiedImageError`, an `OSError`
subclass, raised when the decoded bytes are not an image — otherwise the
rendered JPEG bytes. -/
inductive ThumbOutcome where
  | osErr
  | ok (jpeg : String)
deriving Repr, DecidableEq

/-- `get_thumb_video(path)`: `except OSError: return None`. Total. -/
def get_thumb_video (r : ThumbOutcome) : Option String :=
  match r with
  | .osErr => none
  | .ok d => some d

/-- `get_thumb_image(path)`: `except (OSError, UnidentifiedImageError):
return None`. Total. -/
def get_thumb_image (r : ThumbOutcome) : Option String :=
  match r with
  | .osErr => none
  | .ok d => some d

/-! ## The listing check of `FileDB.list` (C9) -/

/-- A Python value as it occurs in the expression `'width' and 'height' in
attrs`: a string or a bool. -/
inductive PyVal where
  | pstr (s : String)
  | pbool (b : Bool)
deriving Repr, DecidableEq

/-- Python truthiness of such a value. -/
def truthy : PyVal → Bool
  | .pstr s => !(s == "")
  | .pbool b => b

/-- Python `a and b`: `b` if `a` is truthy, else `a`. -/
def pyAnd (a b : PyVal) : PyVal := if truthy a then b else a

/-- The condition `if 'width' and 'height' in attrs:` in `FileDB.list`, as
Python parses it: `'width' and ('height' in attrs)`, then the truthiness of
that value. -/
def widthHeightCheck (attrs : List (String × String)) : Bool :=
  truthy (pyAnd (.pstr "width") (.pbool (hasKey attrs "height")))

/-! ## Derived forms and concrete instances used by the theorems below -/

/-- The catalog a successful `add` leaves behind, given the catalog `cat1`
`_add_entry` produced, the fresh entry id and the assembled attribute list:
attributes appended by `_add_attrs`, then the `add` log row. -/
def addFinalCatalog (cat1 : Catalog) (eid : Nat) (allA : List (String × String)) : Catalog :=
  { cat1 with
    attrs := cat1.attrs ++ allA.map (fun nv => (eid, nv.1, nv.2)),
    logs := cat1.logs ++ [(eid, "add")] }

/-- A sample `FileDB` configuration (non-strict, not dry-run). -/
def exCtx : Ctx := ⟨"base", false, false⟩

/-- A sample readable JPEG source file. -/
def exFileA : SrcFile :=
  { size := 4242, mtime := 1700000000, ctimeStr := "2024-07-01 10:00:00",
    hash := "beefcafe", ext := ".jpg", mime := some "image/jpeg", content := "JPGDATA",
    videoAttrs := [], videoThumb := none,
    imageAttrs := [("width", "640"), ("height", "480")], imageThumb := some "THUMB" }

/-- A sample fresh `uuid4().hex` token. -/
def exUuid : String := "0123456789abcdef0123456789abcdef"

/-- A batch item whose source file raises `OSError` on `os.stat`. -/
def badOp : AddOp := ⟨"bad.jpg", [], none, "ffffffffffffffffffffffffffffffff"⟩

/-- A batch item whose source file is readable and new. -/
def goodOp : AddOp := ⟨"good.jpg", [], some exFileA, exUuid⟩

/-- A catalog already holding an entry with dedup key `(4242, "beefcafe")`. -/
def exDupCatalog : Catalog := ⟨[⟨1, "aa11.jpg", some "image/jpeg", 4242, "beefcafe"⟩], [], []⟩

/-- State holding `exDupCatalog` and an empty store. -/
def exDupState : SState := ⟨exDupCatalog, ⟨[], []⟩⟩

/-- A server state whose store has only the two top-level shard roots. -/
def exSrvState : SState := ⟨⟨[], [], []⟩, ⟨["base/orig", "base/thumb"], []⟩⟩

/-! ## Helper lemmas -/

theorem findSizeHashDup_mem {c : Catalog} {n : Nat} {h : String} {eid : Nat}
    (hf : findSizeHashDup c n h = some eid) :
    eid ∈ c.entries.map Entry.entryId := by
  unfold findSizeHashDup at hf
  rcases Option.map_eq_some'.mp hf with ⟨en, hen, heq⟩
  exact heq ▸ List.mem_map.mpr ⟨en, List.mem_of_find?_eq_some hen, rfl⟩

theorem findPathMtimeDup_mem {c : Catalog} {n : Nat} {rp : String} {mt : Int} {eid : Nat}
    (hf : findPathMtimeDup c n rp mt = some eid) :
    eid ∈ c.entries.map Entry.entryId := by
  unfold findPathMtimeDup at hf
  rcases Option.map_eq_some'.mp hf with ⟨en, hen, heq⟩
  exact heq ▸ List.mem_map.mpr ⟨en, List.mem_of_find?_eq_some hen, rfl⟩

theorem findSizeHashDup_none {c : Catalog} {n : Nat} {h : String}
    (hf : findSizeHashDup c n h = none) :
    ∀ en ∈ c.entries, ¬(en.fileSize = n ∧ en.fileHash = h) := by
  unfold findSizeHashDup at hf
  have h0 := Option.map_eq_none'.mp hf
  intro en hen
  have := List.find?_eq_none.mp h0 en hen
  simpa using this

theorem addEntry_ok_spec {strict : Bool} {c : Catalog} {f : SrcFile} {rp u : String}
    {cat1 : Catalog} {fid : String} {ft : Option String} {eid : Nat}
    (h : _add_entry strict c f rp u = .ok cat1 fid ft eid) :
    cat1 = { c with entries :=
        c.entries ++ [⟨c.entries.length + 1, u ++ lowerStr f.ext, f.mime, f.size, f.hash⟩] }
      ∧ fid = u ++ lowerStr f.ext ∧ ft = f.mime ∧ eid = c.entries.length + 1
      ∧ findSizeHashDup c f.size f.hash = none := by
  unfold _add_entry at h
  split at h
  · exact absurd h (by simp)
  · split at h
    · exact absurd h (by simp)
    next hf =>
      injection h with h1 h2 h3 h4
      exact ⟨h1.symm, h2.symm, h3.symm, h4.symm, hf⟩

theorem addEntry_raises {strict : Bool} {c : Catalog} {f : SrcFile} {rp u : String} {eid : Nat}
    (hdup : findSizeHashDup c f.size f.hash = some eid) :
    ∃ e', _add_entry strict c f rp u = .dup e' ∧ e' ∈ c.entries.map Entry.entryId := by
  unfold _add_entry
  rcases hs : (if strict then none else findPathMtimeDup c f.size rp f.mtime) with _ | e0
  · simp only [hdup]
    exact ⟨eid, rfl, findSizeHashDup_mem hdup⟩
  · refine ⟨e0, rfl, ?_⟩
    cases strict with
    | true => simp at hs
    | false => exact findPathMtimeDup_mem (by simpa using hs)

theorem dedupUniqueL_append_new {c : Catalog} {f : SrcFile} {fid : String}
    {mime : Option String} {eid : Nat}
    (hfind : findSizeHashDup c f.size f.hash = none)
    (hu : dedupUniqueL c.entries) :
    dedupUniqueL (c.entries ++ [⟨eid, fid, mime, f.size, f.hash⟩]) := by
  have hall := findSizeHashDup_none hfind
  intro a ha b hb hne
  rcases List.mem_append.mp ha with ha' | ha'
  · rcases List.mem_append.mp hb with hb' | hb'
    · exact hu a ha' b hb' hne
    · have hb2 : b = ⟨eid, fid, mime, f.size, f.hash⟩ := by simpa using hb'
      intro hcon
      exact hall a ha' ⟨by rw [hcon.1, hb2], by rw [hcon.2, hb2]⟩
  · rcases List.mem_append.mp hb with hb' | hb'
    · have ha2 : a = ⟨eid, fid, mime, f.size, f.hash⟩ := by simpa using ha'
      intro hcon
      exact hall b hb' ⟨by rw [← hcon.1, ha2], by rw [← hcon.2, ha2]⟩
    · have ha2 : a = ⟨eid, fid, mime, f.size, f.hash⟩ := by simpa using ha'
      have hb2 : b = ⟨eid, fid, mime, f.size, f.hash⟩ := by simpa using hb'
      exact absurd (ha2.trans hb2.symm) hne

theorem add_catalog_entries (ctx : Ctx) (s : SState) (rp : String) (tags : List String)
    (f? : Option SrcFile) (u : String) :
    ((add ctx s rp tags f? u).1).catalog.entries = s.catalog.entries
    ∨ ∃ f cat1 fid ft eid, f? = some f
        ∧ _add_entry ctx.strict s.catalog f rp u = .ok cat1 fid ft eid
        ∧ ((add ctx s rp tags f? u).1).catalog.entries = cat1.entries := by
  rcases f? with _ | f
  · left; rfl
  · rcases hae : _add_entry ctx.strict s.catalog f rp u with eid0 | ⟨cat1, fid, ft, eid⟩
    · left
      simp [add, hae]
    · right
      refine ⟨f, cat1, fid, ft, eid, rfl, hae, ?_⟩
      simp only [add, hae]
      split
      · rfl
      · split
        · rfl
        · rfl

theorem addSeq_dedup (ctx : Ctx) (ops : List AddOp) (s : SState)
    (hs : dedupUniqueL s.catalog.entries) :
    dedupUniqueL ((addSeq ctx s ops).catalog.entries) := by
  induction ops generalizing s with
  | nil => exact hs
  | cons op rest ih =>
    show dedupUniqueL ((addSeq ctx (add ctx s op.relpath op.tags op.file op.uuid).1 rest).catalog.entries)
    apply ih
    rcases add_catalog_entries ctx s op.relpath op.tags op.file op.uuid with
      h | ⟨f, cat1, fid, ft, eid, _, hae, hent⟩
    · rw [h]; exact hs
    · rw [hent]
      obtain ⟨hcat1, _, _, _, hfind⟩ := addEntry_ok_spec hae
      rw [hcat1]
      exact dedupUniqueL_append_new hfind hs

theorem get_path_frame {st : Store} {sub fid : String} {st' : Store} {p : String}
    (h : get_path st sub fid = some (st', p)) :
    st'.files = st.files ∧ (st'.dirs = st.dirs ∨ ∃ d, st'.dirs = st.dirs ++ [d]) := by
  unfold get_path at h
  split at h
  · simp only [Option.some.injEq, Prod.mk.injEq] at h
    obtain ⟨h1, _⟩ := h
    by_cases hd : (sub ++ "/" ++ takeStr fid 2) ∈ st.dirs
    · rw [if_pos hd] at h1
      rw [← h1]
      exact ⟨rfl, Or.inl rfl⟩
    · rw [if_neg hd] at h1
      rw [← h1]
      exact ⟨rfl, Or.inr ⟨sub ++ "/" ++ takeStr fid 2, rfl⟩⟩
  · exact absurd h (by simp)

theorem convert_path_frame {ctx : Ctx} {st : Store} {path : String} {st' : Store} {p : String}
    (h : convert_path ctx st path = .ok st' p) :
    st'.files = st.files ∧ (st'.dirs = st.dirs ∨ ∃ d, st'.dirs = st.dirs ++ [d]) := by
  unfold convert_path at h
  split at h
  · split at h
    · split at h
      · exact absurd h (by simp)
      next hg =>
        injection h with h1 h2
        exact h1 ▸ get_path_frame hg
    · split at h
      · split at h
        · exact absurd h (by simp)
        next hg =>
          injection h with h1 h2
          exact h1 ▸ get_path_frame hg
      · exact absurd h (by simp)
  · exact absurd h (by simp)

theorem thumbId_len (fid : String) : 2 < ((splitext fid).1 ++ ".jpg").length := by
  have h4 : (".jpg" : String).length = 4 := rfl
  have := String.length_append (splitext fid).1 ".jpg"
  omega

theorem thumbId_len' (fid : String) : 2 < (splitext fid).1.length + ".jpg".length := by
  have := thumbId_len fid
  simpa [String.length_append] using this

theorem add_dry_spec {basedir : String} {strict : Bool} (s : SState) (rp u : String)
    (tags : List String) (f : SrcFile) {cat1 : Catalog} {fid : String}
    {ft : Option String} {eid : Nat}
    (hok : _add_entry strict s.catalog f rp u = .ok cat1 fid ft eid) :
    add ⟨basedir, strict, true⟩ s rp tags (some f) u
      = (⟨addFinalCatalog cat1 eid (assembledAttrs rp tags f ft), s.store⟩,
         ["adding: " ++ rp ++ "..."], .ret none) := by
  simp [add, hok, addFinalCatalog]

theorem add_wet_spec {basedir : String} {strict : Bool} (s : SState) (rp u : String)
    (tags : List String) (f : SrcFile) {cat1 : Catalog} {fid : String}
    {ft : Option String} {eid : Nat}
    (hok : _add_entry strict s.catalog f rp u = .ok cat1 fid ft eid)
    (hlen : 2 < fid.length) :
    ∃ st2 : Store,
      add ⟨basedir, strict, false⟩ s rp tags (some f) u
        = (⟨addFinalCatalog cat1 eid (assembledAttrs rp tags f ft), st2⟩,
           ["adding: " ++ rp ++ "..."], .ret none) := by
  simp only [add, hok]
  rcases hth : (proberOutputs f ft).2 with _ | tb <;>
    simp [hth, get_path, hlen, thumbId_len fid, thumbId_len' fid, addFinalCatalog]

/-! ## Claim theorems -/

/-- Claim C4, counterexample: in the batch `[badOp, goodOp]`, the first item's
`OSError` (unreadable source) aborts the whole `run` loop — the batch does not
complete, nothing is catalogued, and in particular `goodOp` (which on its own
ingests fine, yielding one entry) is never processed.  This falsifies the
claim that a failure on one file aborts only that file and every remaining
file is still processed. -/
theorem c4_counterexample :
    (runBatch exCtx [] emptyState [badOp, goodOp]).2.2 = false
    ∧ (runBatch exCtx [] emptyState [badOp, goodOp]).1 = emptyState
    ∧ (runBatch exCtx [] emptyState [goodOp]).1.catalog.entries.length = 1 := by
  refine ⟨rfl, rfl, ?_⟩
  decide

/-- Claim C4 as amended: an I/O failure on one file aborts the batch right
there — the state is left as it was before the faulting file, no per-file
report is produced for it, and the remaining items are never processed
(the result does not depend on `rest`).  Only `DuplicateEntry` is absorbed
per-file. -/
theorem c4_batch_abort_amended (ctx : Ctx) (tags : List String) (s : SState)
    (rp u : String) (tgs : List String) (rest : List AddOp) :
    runBatch ctx tags s (⟨rp, tgs, none, u⟩ :: rest) = (s, [], false) := rfl

/-- Claim C5, counterexample: `add` on a file byte-identical to catalogued
content (dedup key `(4242, "beefcafe")` already present as entry 1) does
*not* return the existing entryId — the `except DuplicateEntry` handler in
`add` discards the id carried by the exception and falls through to a bare
`return`, so the caller sees Python `None`. -/
theorem c5_counterexample :
    (add exCtx exDupState "x.jpg" [] (some exFileA) "cccc3333").2.2
      ≠ AddOutcome.ret (some 1) := by
  decide

/-- Claim C5 as amended: on a duplicate (dedup key already present), `add`
logs "ignored", performs no further catalog or store action (the state is
returned unchanged), and returns `None` — the existing entryId is carried
only inside the `DuplicateEntry` exception and is discarded, not returned. -/
theorem c5_duplicate_skip_amended (ctx : Ctx) (s : SState) (rp : String)
    (tags : List String) (f : SrcFile) (u : String) (eid : Nat)
    (hdup : findSizeHashDup s.catalog f.size f.hash = some eid) :
    add ctx s rp tags (some f) u = (s, ["ignored: " ++ rp ++ "..."], .ret none) := by
  obtain ⟨e', he, _⟩ := @addEntry_raises ctx.strict s.catalog f rp u eid hdup
  simp [add, he]

/-- Witness for C5: the amended theorem applied to the concrete duplicate
state of `c5_counterexample`. -/
theorem c5_witness :
    add exCtx exDupState "x.jpg" [] (some exFileA) "cccc3333"
      = (exDupState, ["ignored: x.jpg..."], .ret none) :=
  c5_duplicate_skip_amended exCtx exDupState "x.jpg" [] exFileA "cccc3333" 1 (by decide)

/-- Claim C6, counterexample: when ffprobe's stdout is not decodable JSON
(the usual situation for a file ffprobe cannot parse: it writes nothing to
stdout), `json.load` raises `JSONDecodeError` — a `ValueError`, which the
`except OSError` clause of `get_attrs_video` does **not** catch — so an
exception escapes the prober boundary instead of an empty attribute map
being returned. -/
theorem c6_counterexample :
    get_attrs_video (.out none) = .error .valueError
    ∧ get_attrs_video (.out none) ≠ .ok [] :=
  ⟨rfl, by simp [get_attrs_video]⟩

/-- Claim C6 as amended: the probers never let an `OSError` (for the image
helpers, also PIL's `UnidentifiedImageError`, an `OSError` subclass) escape —
on such failures `get_attrs_video` returns its initial default map,
`get_attrs_image` an empty map, and the thumbnail helpers no thumbnail — but
parse failures in the external data do escape: invalid ffprobe JSON or a
missing `format` key raises `ValueError`/`KeyError` out of `get_attrs_video`,
and a malformed EXIF date raises `ValueError` out of `get_attrs_image`. -/
theorem c6_prober_boundary_amended :
    get_attrs_video .osErr = .ok [("duration", "0"), ("width", "0"), ("height", "0")]
    ∧ get_attrs_image .openErr = .ok []
    ∧ get_thumb_video .osErr = none
    ∧ get_thumb_image .osErr = none
    ∧ get_attrs_video (.out (some ⟨none, none⟩)) = .error .keyError
    ∧ get_attrs_image (.ok 640 480 ⟨none, none, .bad⟩) = .error .valueError :=
  ⟨rfl, rfl, rfl, rfl, rfl, rfl⟩

/-- Claim C9, counterexample: for `attrs = dict([("width","640")])` — `width`
present, `height` absent — the condition `'width' and 'height' in attrs`
evaluates to `False`, refuting the claim that it is always true regardless
of key presence. -/
theorem c9_counterexample : widthHeightCheck [("width", "640")] = false := rfl

/-- Claim C9 as amended: `'width' and 'height' in attrs` is
`'width' and ('height' in attrs)`; since the literal `'width'` is truthy,
the whole condition is exactly `'height' in attrs` — the presence of
`width` is never tested, but the condition is *not* always true. -/
theorem c9_width_ignored_amended (attrs : List (String × String)) :
    widthHeightCheck attrs = hasKey attrs "height" := rfl

theorem do_GET_frame (ctx : Ctx) (s : SState) (path : String) (hdr : Option String) :
    (do_GET ctx s path hdr).1.catalog = s.catalog
    ∧ (do_GET ctx s path hdr).1.store.files = s.store.files
    ∧ ((do_GET ctx s path hdr).1.store.dirs = s.store.dirs
        ∨ ∃ d, (do_GET ctx s path hdr).1.store.dirs = s.store.dirs ++ [d]) := by
  rcases hcv : convert_path ctx s.store path with _ | _ | ⟨st', p⟩
  · simp [do_GET, hcv]
  · simp [do_GET, hcv]
  · have hf := convert_path_frame hcv
    simp only [do_GET, hcv, true_and]
    exact ⟨hf.1, hf.2⟩

theorem do_HEAD_frame (ctx : Ctx) (s : SState) (path : String) (hdr : Option String) :
    (do_HEAD ctx s path hdr).1.catalog = s.catalog
    ∧ (do_HEAD ctx s path hdr).1.store.files = s.store.files
    ∧ ((do_HEAD ctx s path hdr).1.store.dirs = s.store.dirs
        ∨ ∃ d, (do_HEAD ctx s path hdr).1.store.dirs = s.store.dirs ++ [d]) := by
  rcases hcv : convert_path ctx s.store path with _ | _ | ⟨st', p⟩
  · simp [do_HEAD, hcv]
  · simp [do_HEAD, hcv]
  · have hf := convert_path_frame hcv
    simp only [do_HEAD, hcv, true_and]
    exact ⟨hf.1, hf.2⟩

/-- Claim C3, counterexample: a GET for `/orig/abcdef` against a store whose
`orig/` tree holds no `ab` shard directory *creates* that directory
(`get_path` runs `os.makedirs` on the read path), so the filesystem state
under the archive root is mutated by a plain GET, refuting strict
read-onlyness. -/
theorem c3_counterexample :
    (do_GET exCtx exSrvState "/orig/abcdef" none).1.store.dirs
      ≠ exSrvState.store.dirs := by
  decide

/-- Claim C3 as amended: handling any GET or HEAD request never touches the
Catalog and never writes, deletes or modifies any file content; the only
possible filesystem mutation is the creation of at most one (empty) shard
directory under `orig/` or `thumb/` when the requested id's shard directory
does not exist yet. -/
theorem c3_server_readonly_amended (ctx : Ctx) (s : SState) (path : String)
    (hdr : Option String) :
    ((do_GET ctx s path hdr).1.catalog = s.catalog
      ∧ (do_GET ctx s path hdr).1.store.files = s.store.files
      ∧ ((do_GET ctx s path hdr).1.store.dirs = s.store.dirs
          ∨ ∃ d, (do_GET ctx s path hdr).1.store.dirs = s.store.dirs ++ [d]))
    ∧ ((do_HEAD ctx s path hdr).1.catalog = s.catalog
      ∧ (do_HEAD ctx s path hdr).1.store.files = s.store.files
      ∧ ((do_HEAD ctx s path hdr).1.store.dirs = s.store.dirs
          ∨ ∃ d, (do_HEAD ctx s path hdr).1.store.dirs = s.store.dirs ++ [d])) :=
  ⟨do_GET_frame ctx s path hdr, do_HEAD_frame ctx s path hdr⟩

/-- Claim C1: starting from an empty catalog, no sequence of `add` operations
can ever produce two distinct entries sharing both `fileSize` and `fileHash`;
moreover, whenever the dedup key already exists, `_add_entry` raises
`DuplicateEntry` carrying the id of an existing entry (and hence commits
nothing).  The sqlite schema itself has no UNIQUE constraint on the pair, so
this insert-time check is indeed the sole enforcement point. -/
theorem c1_dedup_key_uniqueness (ctx : Ctx) (ops : List AddOp) (strict : Bool)
    (c : Catalog) (f : SrcFile) (rp u : String) (eid : Nat) :
    dedupUniqueL ((addSeq ctx emptyState ops).catalog.entries)
    ∧ (findSizeHashDup c f.size f.hash = some eid →
        ∃ e', _add_entry strict c f rp u = .dup e'
          ∧ e' ∈ c.entries.map Entry.entryId) := by
  constructor
  · apply addSeq_dedup
    intro a ha
    simp [emptyState] at ha
  · intro hdup
    exact @addEntry_raises strict c f rp u eid hdup

/-- Witness for C1: the invariant evaluated on a concrete three-element batch
(new file, unreadable file, byte-identical duplicate), and the duplicate-key
rejection evaluated on a concrete catalog already holding the key. -/
theorem c1_witness :
    dedupUniqueL ((addSeq exCtx emptyState [goodOp, badOp, goodOp]).catalog.entries)
    ∧ ∃ e', _add_entry true exDupCatalog exFileA "x.jpg" "dddd4444" = .dup e'
        ∧ e' ∈ exDupCatalog.entries.map Entry.entryId := by
  have h := c1_dedup_key_uniqueness exCtx [goodOp, badOp, goodOp] true
    exDupCatalog exFileA "x.jpg" "dddd4444" 1
  exact ⟨h.1, h.2 (by decide)⟩

/-- Claim C7 (confirmed): for a newly ingested file, the attribute rows `add`
records are, in order: `path`, `mtime`, one `tag` per lower-cased word token
of the relative path (in path order), one `tag` per caller-supplied tag (in
given order), then every prober-derived attribute with `timestamp` ensured at
the end when the prober did not supply one.  The second conjunct checks the
spec's own example: relative path "2024 trip/beach.jpg" with explicit tag
"family" and an image prober returning width/height but no timestamp. -/
theorem c7_attribute_order (basedir : String) (strict dry : Bool) (s : SState)
    (rp u : String) (tags : List String) (f : SrcFile) (cat1 : Catalog)
    (fid : String) (ft : Option String) (eid : Nat)
    (hok : _add_entry strict s.catalog f rp u = .ok cat1 fid ft eid)
    (hlen : 2 < fid.length) :
    (add ⟨basedir, strict, dry⟩ s rp tags (some f) u).1.catalog.attrs
      = s.catalog.attrs
        ++ (([("path", rp), ("mtime", toString f.mtime)]
              ++ (get_words rp).map (fun w => ("tag", w))
              ++ tags.map (fun t => ("tag", t))
              ++ attrs1Final (proberOutputs f ft).1 f.ctimeStr).map
            (fun nv => (eid, nv.1, nv.2)))
    ∧ (add exCtx emptyState "2024 trip/beach.jpg" ["family"] (some exFileA) exUuid).1.catalog.attrs
      = [(1, "path", "2024 trip/beach.jpg"), (1, "mtime", "1700000000"),
         (1, "tag", "2024"), (1, "tag", "trip"), (1, "tag", "beach"), (1, "tag", "jpg"),
         (1, "tag", "family"),
         (1, "width", "640"), (1, "height", "480"),
         (1, "timestamp", "2024-07-01 10:00:00")] := by
  constructor
  · have hc1 := (addEntry_ok_spec hok).1
    cases dry with
    | false =>
      obtain ⟨st2, hw⟩ := @add_wet_spec basedir strict s rp u tags f cat1 fid ft eid hok hlen
      rw [hw]
      simp [addFinalCatalog, assembledAttrs, hc1]
    | true =>
      have hd := @add_dry_spec basedir strict s rp u tags f cat1 fid ft eid hok
      rw [hd]
      simp [addFinalCatalog, assembledAttrs, hc1]
  · decide

/-- Witness for C7: the general conjunct applied to a concrete new file. -/
theorem c7_witness :
    (add ⟨"base", false, false⟩ emptyState "x y.jpg" ["t1"] (some exFileA) exUuid).1.catalog.attrs
      = emptyState.catalog.attrs
        ++ (([("path", "x y.jpg"), ("mtime", toString exFileA.mtime)]
              ++ (get_words "x y.jpg").map (fun w => ("tag", w))
              ++ ["t1"].map (fun t => ("tag", t))
              ++ attrs1Final (proberOutputs exFileA (some "image/jpeg")).1 exFileA.ctimeStr).map
            (fun nv => (1, nv.1, nv.2))) :=
  (c7_attribute_order "base" false false emptyState "x y.jpg" exUuid ["t1"] exFileA
    ⟨[⟨1, exUuid ++ ".jpg", some "image/jpeg", 4242, "beefcafe"⟩], [], []⟩
    (exUuid ++ ".jpg") (some "image/jpeg") 1 (by decide) (by decide)).1

/-- Claim C8 (confirmed): for a new (non-duplicate) file, dry-run `add`
leaves the store byte-for-byte unchanged (no copy under `orig/`, no
thumbnail under `thumb/`, no shard directory), while producing exactly the
catalog state normal mode would produce — same Entry, same attribute rows,
and the `add` log record — and the same return to the caller. -/
theorem c8_dryrun_purity (basedir : String) (strict : Bool) (s : SState)
    (rp u : String) (tags : List String) (f : SrcFile) (cat1 : Catalog)
    (fid : String) (ft : Option String) (eid : Nat)
    (hok : _add_entry strict s.catalog f rp u = .ok cat1 fid ft eid)
    (hlen : 2 < fid.length) :
    (add ⟨basedir, strict, true⟩ s rp tags (some f) u).1.store = s.store
    ∧ (add ⟨basedir, strict, true⟩ s rp tags (some f) u).1.catalog
        = (add ⟨basedir, strict, false⟩ s rp tags (some f) u).1.catalog
    ∧ (add ⟨basedir, strict, true⟩ s rp tags (some f) u).2
        = (add ⟨basedir, strict, false⟩ s rp tags (some f) u).2
    ∧ (add ⟨basedir, strict, true⟩ s rp tags (some f) u).1.catalog.logs
        = s.catalog.logs ++ [(eid, "add")] := by
  obtain ⟨st2, hw⟩ := @add_wet_spec basedir strict s rp u tags f cat1 fid ft eid hok hlen
  have hd := @add_dry_spec basedir strict s rp u tags f cat1 fid ft eid hok
  rw [hd, hw]
  refine ⟨rfl, rfl, rfl, ?_⟩
  have hc1 := (addEntry_ok_spec hok).1
  simp [addFinalCatalog, hc1]

/-- Witness for C8: dry-run purity evaluated on a concrete new file. -/
theorem c8_witness :
    (add ⟨"base", false, true⟩ emptyState "x y.jpg" ["t1"] (some exFileA) exUuid).1.store
      = emptyState.store
    ∧ (add ⟨"base", false, true⟩ emptyState "x y.jpg" ["t1"] (some exFileA) exUuid).1.catalog
        = (add ⟨"base", false, false⟩ emptyState "x y.jpg" ["t1"] (some exFileA) exUuid).1.catalog
    ∧ (add ⟨"base", false, true⟩ emptyState "x y.jpg" ["t1"] (some exFileA) exUuid).2
        = (add ⟨"base", false, false⟩ emptyState "x y.jpg" ["t1"] (some exFileA) exUuid).2
    ∧ (add ⟨"base", false, true⟩ emptyState "x y.jpg" ["t1"] (some exFileA) exUuid).1.catalog.logs
        = emptyState.catalog.logs ++ [(1, "add")] :=
  c8_dryrun_purity "base" false emptyState "x y.jpg" exUuid ["t1"] exFileA
    ⟨[⟨1, exUuid ++ ".jpg", some "image/jpeg", 4242, "beefcafe"⟩], [], []⟩
    (exUuid ++ ".jpg") (some "image/jpeg") 1 (by decide) (by decide)

/-- Claim C2 (confirmed): range arithmetic of `send_head_partial` for a
stored file of length `L`.  `bytes=A-B` yields 206 with
`Content-Range: bytes A-B/L` and `Content-Length` `B-A+1`; `bytes=A-`
serves from offset `A` to end of file (`L-A` bytes); `bytes=-N` serves the
last `N` bytes from offset `L-N`; a header whose two groups are both absent
— including the non-matching `bytes=` — yields 400; a parsed range whose
resolved file does not exist yields 404.  The last three conjuncts are the
spec's 1000-byte examples. -/
theorem c2_range_arithmetic (L A B A2 N A4 : Nat) (rsAB rsA rsN rsM rs404 : String)
    (e? : Option Nat) :
    (matchRange rsAB = some (some A, some B) →
      send_head_byterange rsAB (some L)
        = .ok ⟨206, toString ((B : Int) - A + 1),
            "bytes " ++ toString (A : Int) ++ "-" ++ toString (B : Int) ++ "/" ++ toString (L : Int),
            (A : Int), (B : Int) - A + 1⟩)
    ∧ (matchRange rsA = some (some A2, none) →
      send_head_byterange rsA (some L)
        = .ok ⟨206, toString ((L : Int) - A2),
            "bytes " ++ toString (A2 : Int) ++ "-" ++ toString ((L : Int) - 1) ++ "/" ++ toString (L : Int),
            (A2 : Int), (L : Int) - A2⟩)
    ∧ (matchRange rsN = some (none, some N) →
      send_head_byterange rsN (some L)
        = .ok ⟨206, toString (N : Int),
            "bytes " ++ toString ((L : Int) - N) ++ "-" ++ toString ((L : Int) - 1) ++ "/" ++ toString (L : Int),
            (L : Int) - N, (N : Int)⟩)
    ∧ send_head_byterange "bytes=" (some L) = .err 400
    ∧ (matchRange rsM = some (none, none) →
        send_head_byterange rsM (some L) = .err 400)
    ∧ (matchRange rs404 = some (some A4, e?) →
        send_head_byterange rs404 none = .err 404)
    ∧ send_head_byterange "bytes=0-99" (some 1000)
        = .ok ⟨206, "100", "bytes 0-99/1000", 0, 100⟩
    ∧ send_head_byterange "bytes=900-" (some 1000)
        = .ok ⟨206, "100", "bytes 900-999/1000", 900, 100⟩
    ∧ send_head_byterange "bytes=-100" (some 1000)
        = .ok ⟨206, "100", "bytes 900-999/1000", 900, 100⟩ := by
  have e1 : (B : Int) + 1 - A = (B : Int) - A + 1 := by ring
  have e2 : (B : Int) + 1 - 1 = (B : Int) := by ring
  have e3 : (L : Int) - ((L : Int) - N) = (N : Int) := by ring
  refine ⟨?_, ?_, ?_, ?_, ?_, ?_, by decide, by decide, by decide⟩
  · intro h
    simp [send_head_byterange, h, e1, e2]
  · intro h
    simp [send_head_byterange, h]
  · intro h
    simp [send_head_byterange, h, e3]
  · simp [send_head_byterange, show matchRange "bytes=" = none from rfl]
  · intro h
    simp [send_head_byterange, h]
  · intro h
    simp [send_head_byterange, h]

/-- Witness for C2: the general conjuncts applied to the spec's 1000-byte
file examples, plus a both-absent header and a missing file. -/
theorem c2_range_arithmetic_witness :
    send_head_byterange "bytes=0-99" (some 1000)
      = .ok ⟨206, "100", "bytes 0-99/1000", 0, 100⟩
    ∧ send_head_byterange "bytes=900-" (some 1000)
      = .ok ⟨206, "100", "bytes 900-999/1000", 900, 100⟩
    ∧ send_head_byterange "bytes=-100" (some 1000)
      = .ok ⟨206, "100", "bytes 900-999/1000", 900, 100⟩
    ∧ send_head_byterange "bytes=-" (some 1000) = .err 400
    ∧ send_head_byterange "bytes=7-" none = .err 404 := by
  have h := c2_range_arithmetic 1000 0 99 900 100 7
    "bytes=0-99" "bytes=900-" "bytes=-100" "bytes=-" "bytes=7-" none
  exact ⟨h.1 (by decide), h.2.1 (by decide), h.2.2.1 (by decide),
    h.2.2.2.2.1 (by decide), h.2.2.2.2.2.1 (by decide)⟩

/-- Claim C10 (confirmed): `send_head_partial` never validates the range
against the file length and has no 416 path at all: for `bytes=-N` with
`N > L` it computes the negative offset `L-N` and still sends 206 with that
negative number opening the `Content-Range`; for `bytes=A-B` with `B ≥ L` it
sends `Content-Length = B-A+1` although only `L-A` bytes exist. -/
theorem c10_no_range_validation (L N A B : Nat) (rs0 rsN rsAB : String)
    (file : Option Nat) (hN : L < N) (hB : L ≤ B) :
    send_head_byterange rs0 file ≠ .err 416
    ∧ (matchRange rsN = some (none, some N) →
        send_head_byterange rsN (some L)
          = .ok ⟨206, toString (N : Int),
              "bytes " ++ toString ((L : Int) - N) ++ "-" ++ toString ((L : Int) - 1) ++ "/" ++ toString (L : Int),
              (L : Int) - N, (N : Int)⟩
          ∧ (L : Int) - N < 0)
    ∧ (matchRange rsAB = some (some A, some B) →
        send_head_byterange rsAB (some L)
          = .ok ⟨206, toString ((B : Int) - A + 1),
              "bytes " ++ toString (A : Int) ++ "-" ++ toString (B : Int) ++ "/" ++ toString (L : Int),
              (A : Int), (B : Int) - A + 1⟩
          ∧ (L : Int) - A < (B : Int) - A + 1) := by
  refine ⟨?_, ?_, ?_⟩
  · unfold send_head_byterange
    rcases hm : matchRange rs0 with _ | ⟨s?, e?⟩
    · simp
    · rcases s? with _ | a <;> rcases e? with _ | b <;> rcases file with _ | L2 <;> simp
  · intro h
    have e3 : (L : Int) - ((L : Int) - N) = (N : Int) := by ring
    exact ⟨by simp [send_head_byterange, h, e3], by omega⟩
  · intro h
    have e1 : (B : Int) + 1 - A = (B : Int) - A + 1 := by ring
    have e2 : (B : Int) + 1 - 1 = (B : Int) := by ring
    exact ⟨by simp [send_head_byterange, h, e1, e2], by omega⟩

/-- Witness for C10: a 1000-byte file with the suffix request `bytes=-2000`
(negative start) and the overlong request `bytes=0-1500`. -/
theorem c10_witness :
    send_head_byterange "bytes=" (some 1000) ≠ .err 416
    ∧ (send_head_byterange "bytes=-2000" (some 1000)
        = .ok ⟨206, "2000", "bytes -1000-999/1000", -1000, 2000⟩
        ∧ ((1000 : Int) - 2000 < 0))
    ∧ (send_head_byterange "bytes=0-1500" (some 1000)
        = .ok ⟨206, "1501", "bytes 0-1500/1000", 0, 1501⟩
        ∧ ((1000 : Int) - 0 < (1500 : Int) - 0 + 1)) := by
  have h := c10_no_range_validation 1000 2000 0 1500
    "bytes=" "bytes=-2000" "bytes=0-1500" (some 1000) (by omega) (by omega)
  exact ⟨h.1, h.2.1 (by decide), h.2.2 (by decide)⟩

end Fdb
